import Mathlib

/-
Shallow embedding of the minigbm core helpers (src/helpers.c, src/drm_helpers.c)
and proofs of the specification claims about them.

Machine integers: the C code computes in uint32_t; we model values as Nat and
apply `% U32` exactly where the C arithmetic can wrap (multiplications and
additions of uint32 quantities). External kernel calls (drmIoctl) are modelled
as oracle parameters; the pure computation around them is translated verbatim.
-/

set_option autoImplicit false

namespace Minigbm

/-- U32 is 2^32, the modulus of C uint32_t arithmetic. -/
def U32 : Nat := 4294967296

/-- fourcc_code from drm_fourcc.h: packs four characters into a 32-bit code.
The C computes a | (b << 8) | (c << 16) | (d << 24); since each byte is
below 256 the OR of disjoint byte lanes equals this sum. -/
def fourcc_code (a b c d : Char) : Nat :=
  a.toNat + b.toNat * 256 + c.toNat * 65536 + d.toNat * 16777216

/-- DRV_MAX_PLANES from drv.h. -/
def DRV_MAX_PLANES : Nat := 4

def DRM_FORMAT_C8 : Nat := fourcc_code 'C' '8' ' ' ' '
def DRM_FORMAT_R8 : Nat := fourcc_code 'R' '8' ' ' ' '
def DRM_FORMAT_R16 : Nat := fourcc_code 'R' '1' '6' ' '
def DRM_FORMAT_RGB332 : Nat := fourcc_code 'R' 'G' 'B' '8'
def DRM_FORMAT_BGR233 : Nat := fourcc_code 'B' 'G' 'R' '8'
def DRM_FORMAT_XRGB4444 : Nat := fourcc_code 'X' 'R' '1' '2'
def DRM_FORMAT_XBGR4444 : Nat := fourcc_code 'X' 'B' '1' '2'
def DRM_FORMAT_RGBX4444 : Nat := fourcc_code 'R' 'X' '1' '2'
def DRM_FORMAT_BGRX4444 : Nat := fourcc_code 'B' 'X' '1' '2'
def DRM_FORMAT_ARGB4444 : Nat := fourcc_code 'A' 'R' '1' '2'
def DRM_FORMAT_ABGR4444 : Nat := fourcc_code 'A' 'B' '1' '2'
def DRM_FORMAT_RGBA4444 : Nat := fourcc_code 'R' 'A' '1' '2'
def DRM_FORMAT_BGRA4444 : Nat := fourcc_code 'B' 'A' '1' '2'
def DRM_FORMAT_XRGB1555 : Nat := fourcc_code 'X' 'R' '1' '5'
def DRM_FORMAT_XBGR1555 : Nat := fourcc_code 'X' 'B' '1' '5'
def DRM_FORMAT_RGBX5551 : Nat := fourcc_code 'R' 'X' '1' '5'
def DRM_FORMAT_BGRX5551 : Nat := fourcc_code 'B' 'X' '1' '5'
def DRM_FORMAT_ARGB1555 : Nat := fourcc_code 'A' 'R' '1' '5'
def DRM_FORMAT_ABGR1555 : Nat := fourcc_code 'A' 'B' '1' '5'
def DRM_FORMAT_RGBA5551 : Nat := fourcc_code 'R' 'A' '1' '5'
def DRM_FORMAT_BGRA5551 : Nat := fourcc_code 'B' 'A' '1' '5'
def DRM_FORMAT_RGB565 : Nat := fourcc_code 'R' 'G' '1' '6'
def DRM_FORMAT_BGR565 : Nat := fourcc_code 'B' 'G' '1' '6'
def DRM_FORMAT_RGB888 : Nat := fourcc_code 'R' 'G' '2' '4'
def DRM_FORMAT_BGR888 : Nat := fourcc_code 'B' 'G' '2' '4'
def DRM_FORMAT_XRGB8888 : Nat := fourcc_code 'X' 'R' '2' '4'
def DRM_FORMAT_XBGR8888 : Nat := fourcc_code 'X' 'B' '2' '4'
def DRM_FORMAT_RGBX8888 : Nat := fourcc_code 'R' 'X' '2' '4'
def DRM_FORMAT_BGRX8888 : Nat := fourcc_code 'B' 'X' '2' '4'
def DRM_FORMAT_ARGB8888 : Nat := fourcc_code 'A' 'R' '2' '4'
def DRM_FORMAT_ABGR8888 : Nat := fourcc_code 'A' 'B' '2' '4'
def DRM_FORMAT_RGBA8888 : Nat := fourcc_code 'R' 'A' '2' '4'
def DRM_FORMAT_BGRA8888 : Nat := fourcc_code 'B' 'A' '2' '4'
def DRM_FORMAT_XRGB2101010 : Nat := fourcc_code 'X' 'R' '3' '0'
def DRM_FORMAT_XBGR2101010 : Nat := fourcc_code 'X' 'B' '3' '0'
def DRM_FORMAT_RGBX1010102 : Nat := fourcc_code 'R' 'X' '3' '0'
def DRM_FORMAT_BGRX1010102 : Nat := fourcc_code 'B' 'X' '3' '0'
def DRM_FORMAT_ARGB2101010 : Nat := fourcc_code 'A' 'R' '3' '0'
def DRM_FORMAT_ABGR2101010 : Nat := fourcc_code 'A' 'B' '3' '0'
def DRM_FORMAT_RGBA1010102 : Nat := fourcc_code 'R' 'A' '3' '0'
def DRM_FORMAT_BGRA1010102 : Nat := fourcc_code 'B' 'A' '3' '0'
def DRM_FORMAT_YUYV : Nat := fourcc_code 'Y' 'U' 'Y' 'V'
def DRM_FORMAT_YVYU : Nat := fourcc_code 'Y' 'V' 'Y' 'U'
def DRM_FORMAT_UYVY : Nat := fourcc_code 'U' 'Y' 'V' 'Y'
def DRM_FORMAT_VYUY : Nat := fourcc_code 'V' 'Y' 'U' 'Y'
def DRM_FORMAT_AYUV : Nat := fourcc_code 'A' 'Y' 'U' 'V'
def DRM_FORMAT_NV12 : Nat := fourcc_code 'N' 'V' '1' '2'
def DRM_FORMAT_NV21 : Nat := fourcc_code 'N' 'V' '2' '1'
def DRM_FORMAT_YVU420 : Nat := fourcc_code 'Y' 'V' '1' '2'
def DRM_FORMAT_P010 : Nat := fourcc_code 'P' '0' '1' '0'
def DRM_FORMAT_GR88 : Nat := fourcc_code 'G' 'R' '8' '8'
def DRM_FORMAT_RG88 : Nat := fourcc_code 'R' 'G' '8' '8'
def DRM_FORMAT_ABGR16161616F : Nat := fourcc_code 'A' 'B' '4' 'H'

/-- Internal minigbm format from drv.h. -/
def DRM_FORMAT_YVU420_ANDROID : Nat := fourcc_code '9' '9' '9' '7'

/-- Internal minigbm format from drv.h. -/
def DRM_FORMAT_MTISP_SXYZW10 : Nat := fourcc_code 'M' 'T' '1' '0'

/-- Linear (no tiling) framebuffer modifier; fourcc_mod_code(NONE, 0) = 0. -/
def DRM_FORMAT_MOD_LINEAR : Nat := 0

/-- BO_QUIRK_DUMB32BPP from drv.h (bit 0). -/
def BO_QUIRK_DUMB32BPP : Nat := 1

/-- BO_QUIRK_NONE from drv.h. -/
def BO_QUIRK_NONE : Nat := 0

/-- DIV_ROUND_UP(n, d) = (n + d - 1) / d, as plain Nat arithmetic
(used in statements where no overflow can occur). -/
def DIV_ROUND_UP (n d : Nat) : Nat := (n + d - 1) / d

/-- DIV_ROUND_UP as the C computes it in uint32_t: the sum n + d - 1 wraps
modulo 2^32 before the division. -/
def u32DRU (n d : Nat) : Nat := ((n + d - 1) % U32) / d

/-- ALIGN(v, a) from util.h, in uint32_t arithmetic. -/
def ALIGN_u32 (v a : Nat) : Nat := (u32DRU v a * a) % U32

/-- struct planar_layout from helpers.c. The C arrays have DRV_MAX_PLANES
slots; the catalog initializers below list exactly the first num_planes
entries, which are the only ones the code reads. -/
structure planar_layout where
  num_planes : Nat
  horizontal_subsampling : List Nat
  vertical_subsampling : List Nat
  bytes_per_pixel : List Nat
deriving DecidableEq, Repr

def packed_1bpp_layout : planar_layout :=
  { num_planes := 1, horizontal_subsampling := [1], vertical_subsampling := [1],
    bytes_per_pixel := [1] }

def packed_2bpp_layout : planar_layout :=
  { num_planes := 1, horizontal_subsampling := [1], vertical_subsampling := [1],
    bytes_per_pixel := [2] }

def packed_3bpp_layout : planar_layout :=
  { num_planes := 1, horizontal_subsampling := [1], vertical_subsampling := [1],
    bytes_per_pixel := [3] }

def packed_4bpp_layout : planar_layout :=
  { num_planes := 1, horizontal_subsampling := [1], vertical_subsampling := [1],
    bytes_per_pixel := [4] }

def packed_8bpp_layout : planar_layout :=
  { num_planes := 1, horizontal_subsampling := [1], vertical_subsampling := [1],
    bytes_per_pixel := [8] }

def biplanar_yuv_420_layout : planar_layout :=
  { num_planes := 2, horizontal_subsampling := [1, 2], vertical_subsampling := [1, 2],
    bytes_per_pixel := [1, 2] }

def triplanar_yuv_420_layout : planar_layout :=
  { num_planes := 3, horizontal_subsampling := [1, 2, 2], vertical_subsampling := [1, 2, 2],
    bytes_per_pixel := [1, 1, 1] }

def biplanar_yuv_p010_layout : planar_layout :=
  { num_planes := 2, horizontal_subsampling := [1, 2], vertical_subsampling := [1, 2],
    bytes_per_pixel := [2, 4] }

/-- layout_from_format from helpers.c: the switch over supported formats,
returning none on the default (unknown format) branch. -/
def layout_from_format (format : Nat) : Option planar_layout :=
  if format = DRM_FORMAT_BGR233 ∨ format = DRM_FORMAT_C8 ∨ format = DRM_FORMAT_R8 ∨
     format = DRM_FORMAT_RGB332 then
    some packed_1bpp_layout
  else if format = DRM_FORMAT_R16 then
    some packed_2bpp_layout
  else if format = DRM_FORMAT_YVU420 ∨ format = DRM_FORMAT_YVU420_ANDROID then
    some triplanar_yuv_420_layout
  else if format = DRM_FORMAT_NV12 ∨ format = DRM_FORMAT_NV21 then
    some biplanar_yuv_420_layout
  else if format = DRM_FORMAT_P010 then
    some biplanar_yuv_p010_layout
  else if format = DRM_FORMAT_ABGR1555 ∨ format = DRM_FORMAT_ABGR4444 ∨
          format = DRM_FORMAT_ARGB1555 ∨ format = DRM_FORMAT_ARGB4444 ∨
          format = DRM_FORMAT_BGR565 ∨ format = DRM_FORMAT_BGRA4444 ∨
          format = DRM_FORMAT_BGRA5551 ∨ format = DRM_FORMAT_BGRX4444 ∨
          format = DRM_FORMAT_BGRX5551 ∨ format = DRM_FORMAT_GR88 ∨
          format = DRM_FORMAT_RG88 ∨ format = DRM_FORMAT_RGB565 ∨
          format = DRM_FORMAT_RGBA4444 ∨ format = DRM_FORMAT_RGBA5551 ∨
          format = DRM_FORMAT_RGBX4444 ∨ format = DRM_FORMAT_RGBX5551 ∨
          format = DRM_FORMAT_UYVY ∨ format = DRM_FORMAT_VYUY ∨
          format = DRM_FORMAT_XBGR1555 ∨ format = DRM_FORMAT_XBGR4444 ∨
          format = DRM_FORMAT_XRGB1555 ∨ format = DRM_FORMAT_XRGB4444 ∨
          format = DRM_FORMAT_YUYV ∨ format = DRM_FORMAT_YVYU ∨
          format = DRM_FORMAT_MTISP_SXYZW10 then
    some packed_2bpp_layout
  else if format = DRM_FORMAT_BGR888 ∨ format = DRM_FORMAT_RGB888 then
    some packed_3bpp_layout
  else if format = DRM_FORMAT_ABGR2101010 ∨ format = DRM_FORMAT_ABGR8888 ∨
          format = DRM_FORMAT_ARGB2101010 ∨ format = DRM_FORMAT_ARGB8888 ∨
          format = DRM_FORMAT_AYUV ∨ format = DRM_FORMAT_BGRA1010102 ∨
          format = DRM_FORMAT_BGRA8888 ∨ format = DRM_FORMAT_BGRX1010102 ∨
          format = DRM_FORMAT_BGRX8888 ∨ format = DRM_FORMAT_RGBA1010102 ∨
          format = DRM_FORMAT_RGBA8888 ∨ format = DRM_FORMAT_RGBX1010102 ∨
          format = DRM_FORMAT_RGBX8888 ∨ format = DRM_FORMAT_XBGR2101010 ∨
          format = DRM_FORMAT_XBGR8888 ∨ format = DRM_FORMAT_XRGB2101010 ∨
          format = DRM_FORMAT_XRGB8888 then
    some packed_4bpp_layout
  else if format = DRM_FORMAT_ABGR16161616F then
    some packed_8bpp_layout
  else
    none

/-- drv_num_planes_from_format from helpers.c: total over all format codes,
returning 0 for a format absent from the catalog. -/
def drv_num_planes_from_format (format : Nat) : Nat :=
  match layout_from_format format with
  | some l => l.num_planes
  | none => 0

/-- drv_height_from_format from helpers.c. The C dereferences the catalog
entry without a null check and asserts plane < num_planes; both failure
modes are modelled as none. -/
def drv_height_from_format (format height : Nat) (plane : Nat) : Option Nat :=
  match layout_from_format format with
  | none => none
  | some l =>
    if plane < l.num_planes then
      some (u32DRU height (l.vertical_subsampling.getD plane 0))
    else none

/-- drv_vertical_subsampling_from_format from helpers.c. -/
def drv_vertical_subsampling_from_format (format : Nat) (plane : Nat) : Option Nat :=
  match layout_from_format format with
  | none => none
  | some l =>
    if plane < l.num_planes then
      some (l.vertical_subsampling.getD plane 0)
    else none

/-- drv_bytes_per_pixel_from_format from helpers.c. -/
def drv_bytes_per_pixel_from_format (format : Nat) (plane : Nat) : Option Nat :=
  match layout_from_format format with
  | none => none
  | some l =>
    if plane < l.num_planes then
      some (l.bytes_per_pixel.getD plane 0)
    else none

/-- drv_stride_from_format from helpers.c: plane width is the format width
divided (rounding up) by the horizontal subsampling, the stride is that times
bytes per pixel, and the Android YV12 format aligns the luma stride to 32 and
chroma strides to 16. -/
def drv_stride_from_format (format width : Nat) (plane : Nat) : Option Nat :=
  match layout_from_format format with
  | none => none
  | some l =>
    if plane < l.num_planes then
      let plane_width := u32DRU width (l.horizontal_subsampling.getD plane 0)
      let stride := (plane_width * l.bytes_per_pixel.getD plane 0) % U32
      some (if format = DRM_FORMAT_YVU420_ANDROID then
              (if plane = 0 then ALIGN_u32 stride 32 else ALIGN_u32 stride 16)
            else stride)
    else none

/-- subsample_stride from helpers.c: for planes other than 0 of the legacy
YVU420 formats the stride is halved rounding up; otherwise unchanged. -/
def subsample_stride (stride format : Nat) (plane : Nat) : Nat :=
  if plane ≠ 0 ∧ (format = DRM_FORMAT_YVU420 ∨ format = DRM_FORMAT_YVU420_ANDROID) then
    u32DRU stride 2
  else stride

/-- drv_size_from_format from helpers.c: stride times the subsampled plane
height, in uint32 arithmetic; none propagates the catalog-miss / bad-plane
failure of drv_height_from_format. -/
def drv_size_from_format (format stride height : Nat) (plane : Nat) : Option Nat :=
  match drv_height_from_format format height plane with
  | none => none
  | some h => some ((stride * h) % U32)

/-- Fields of struct bo_metadata (drv_priv.h) that the helpers under
verification read or write. -/
structure bo_meta where
  height : Nat
  strides : List Nat
  sizes : List Nat
  offsets : List Nat
  total_size : Nat
deriving DecidableEq, Repr

/-- Body of the plane loop of drv_bo_from_format_and_padding: one step per
plane, carrying the plane index and the running offset, and producing the
strides, sizes and offsets lists plus the final offset (the total size).
Each step computes the subsampled stride, the plane size
stride * DIV_ROUND_UP(aligned_height, vertical_subsampling) + padding (in
uint32 arithmetic), records the running offset and adds the size to it. -/
def fillPlanes (stride aligned_height format : Nat) :
    Nat → Nat → List Nat → List Nat → (List Nat × List Nat × List Nat × Nat)
  | _, offset, [], _ => ([], [], [], offset)
  | p, offset, v :: vs, pads =>
    let s := subsample_stride stride format p
    let sz := ((s * u32DRU aligned_height v) % U32 + pads.headD 0) % U32
    let rest := fillPlanes stride aligned_height format (p + 1) ((offset + sz) % U32) vs pads.tail
    (s :: rest.1, sz :: rest.2.1, offset :: rest.2.2.1, rest.2.2.2)

/-- Per-plane vertical subsampling factors actually read by the plane loop:
entry p of the catalog array for each p < num_planes. -/
def vsubList (l : planar_layout) : List Nat :=
  (List.range l.num_planes).map (fun p => l.vertical_subsampling.getD p 0)

/-- drv_bo_from_format_and_padding from helpers.c. The assert(num_planes)
and the two DRM_FORMAT_YVU420_ANDROID asserts (aligned height equals the
buffer height; the stride is 32-byte aligned) are modelled as none. -/
def drv_bo_from_format_and_padding (m : bo_meta) (stride aligned_height format : Nat)
    (padding : List Nat) : Option bo_meta :=
  match layout_from_format format with
  | none => none
  | some l =>
    if l.num_planes = 0 then none
    else if format = DRM_FORMAT_YVU420_ANDROID ∧
            ¬(aligned_height = m.height ∧ stride = ALIGN_u32 stride 32) then none
    else
      let r := fillPlanes stride aligned_height format 0 0 (vsubList l) padding
      some { m with strides := r.1, sizes := r.2.1, offsets := r.2.2.1,
                    total_size := r.2.2.2 }

/-- drv_bo_from_format from helpers.c: zero padding for all
DRV_MAX_PLANES planes. -/
def drv_bo_from_format (m : bo_meta) (stride aligned_height format : Nat) : Option bo_meta :=
  drv_bo_from_format_and_padding m stride aligned_height format [0, 0, 0, 0]

/-- Strides component of the plane loop, by itself: plane p gets the
subsampled stride. -/
def stridesOf (stride format : Nat) : Nat → List Nat → List Nat
  | _, [] => []
  | p, _ :: vs => subsample_stride stride format p :: stridesOf stride format (p + 1) vs

/-- Sizes component of the plane loop, by itself. -/
def sizesOf (stride aligned_height format : Nat) : Nat → List Nat → List Nat → List Nat
  | _, [], _ => []
  | p, v :: vs, pads =>
    ((subsample_stride stride format p * u32DRU aligned_height v) % U32 + pads.headD 0) % U32 ::
      sizesOf stride aligned_height format (p + 1) vs pads.tail

/-- Offsets component of the plane loop: the running offset before each
plane, accumulated modulo 2^32. -/
def offsetsOf (offset : Nat) : List Nat → List Nat
  | [] => []
  | sz :: rest => offset :: offsetsOf ((offset + sz) % U32) rest

/-- Final accumulated offset of the plane loop (the total size). -/
def totalOf (offset : Nat) : List Nat → Nat
  | [] => offset
  | sz :: rest => totalOf ((offset + sz) % U32) rest

/-- struct mapping / struct vma as drv_mapping_destroy reads them: the
kernel handle the mapping belongs to and its reference count (a C int). -/
structure mapping_rec where
  handle : Nat
  refcount : Int
deriving DecidableEq, Repr

/-- Body of the while loop of drv_mapping_destroy for one plane handle h,
acting on the part of the mappings array at or after the cursor: a
non-matching entry is passed over (stays, cursor advances); a matching entry
has its refcount decremented, the backend unmap is invoked when the count
reaches zero (recorded in the returned event list), and the entry is removed
(the array shifts, so the cursor does not advance). Returns the surviving
entries in order and the handles for which unmap was invoked. The backend
bo_unmap call is external and modelled as succeeding (returning 0). -/
def scanPlane (h : Nat) : List mapping_rec → (List mapping_rec × List Nat)
  | [] => ([], [])
  | m :: rest =>
    let r := scanPlane h rest
    if m.handle ≠ h then (m :: r.1, r.2)
    else if m.refcount - 1 = 0 then (r.1, h :: r.2)
    else (r.1, r.2)

/-- The plane loop of drv_mapping_destroy. The cursor idx is initialised once
before the loop over planes; each plane's while loop runs it to the end of
the array, so entries already passed form an accumulated prefix and the next
plane scans only what remains (nothing, after the first plane). -/
def mappingDestroyLoop :
    List Nat → List mapping_rec → List mapping_rec → List Nat →
    (List mapping_rec × List Nat)
  | [], passed, remaining, events => (passed ++ remaining, events)
  | h :: hs, passed, remaining, events =>
    let r := scanPlane h remaining
    mappingDestroyLoop hs (passed ++ r.1) [] (events ++ r.2)

/-- drv_mapping_destroy from helpers.c, over the buffer's per-plane handle
list and the driver's mapping cache: returns the cache left behind and the
list of handles for which the backend unmap was invoked. -/
def drv_mapping_destroy (handles : List Nat) (mappings : List mapping_rec) :
    List mapping_rec × List Nat :=
  mappingDestroyLoop handles [] mappings []

/-- The plane loop of drv_gem_bo_destroy (drm_helpers.c): for each plane, the
inner loop looks for an earlier plane with the same handle and skips the
close if one exists; otherwise DRM_IOCTL_GEM_CLOSE is issued for the handle.
prev accumulates the handles of all planes already visited; the returned list
records the handles passed to GEM close, in order. -/
def gemDestroyScan : List Nat → List Nat → List Nat
  | _, [] => []
  | prev, h :: rest =>
    if h ∈ prev then gemDestroyScan (prev ++ [h]) rest
    else h :: gemDestroyScan (prev ++ [h]) rest

/-- drv_gem_bo_destroy from drm_helpers.c, as the list of handles it passes
to DRM_IOCTL_GEM_CLOSE (the external ioctl itself is the Backend Adapter's
release call; its per-call failure only affects the returned errno, not
which handles are closed). -/
def drv_gem_bo_destroy (handles : List Nat) : List Nat :=
  gemDestroyScan [] handles

/-- Loop of drv_prime_bo_import (drm_helpers.c): acquired is the list of
handles obtained for earlier planes, fds the remaining per-plane descriptors.
On an ioctl failure the code sets num_planes to the failing plane and calls
drv_gem_bo_destroy, so the first component is none and the second the list
of handles closed; on success it is the full handle list with no closes. -/
def primeImportLoop (ioctl : Nat → Option Nat) :
    List Nat → List Nat → (Option (List Nat) × List Nat)
  | acquired, [] => (some acquired, [])
  | acquired, fd :: rest =>
    match ioctl fd with
    | none => (none, drv_gem_bo_destroy acquired)
    | some h => primeImportLoop ioctl (acquired ++ [h]) rest

/-- drv_prime_bo_import from drm_helpers.c, with DRM_IOCTL_PRIME_FD_TO_HANDLE
modelled as an oracle from the plane's fd to the handle it yields (none
models an ioctl failure). -/
def drv_prime_bo_import (ioctl : Nat → Option Nat) (fds : List Nat) :
    Option (List Nat) × List Nat :=
  primeImportLoop ioctl [] fds

/-- The driver's buffer_table hash (drmHash*): a partial map from a handle
to the stored count. -/
def buffer_table : Type := Nat → Option Nat

/-- drmHashLookup; a miss leaves the out parameter unread, which
drv_get_reference_count initialises to 0. -/
def drmHashLookup (t : buffer_table) (h : Nat) : Option Nat := t h

/-- drmHashDelete; deleting an absent key is a no-op. -/
def drmHashDelete (t : buffer_table) (h : Nat) : buffer_table :=
  fun k => if k = h then none else t k

/-- drmHashInsert. -/
def drmHashInsert (t : buffer_table) (h v : Nat) : buffer_table :=
  fun k => if k = h then some v else t k

/-- drv_get_reference_count from drm_helpers.c: 0 when the handle is not in
the table. -/
def drv_get_reference_count (t : buffer_table) (h : Nat) : Nat :=
  match drmHashLookup t h with
  | some n => n
  | none => 0

/-- drv_increment_reference_count from drm_helpers.c: delete then insert
num + 1. -/
def drv_increment_reference_count (t : buffer_table) (h : Nat) : buffer_table :=
  drmHashInsert (drmHashDelete t h) h (drv_get_reference_count t h + 1)

/-- drv_decrement_reference_count from drm_helpers.c: delete, then insert
num - 1 only when num > 0. -/
def drv_decrement_reference_count (t : buffer_table) (h : Nat) : buffer_table :=
  if drv_get_reference_count t h > 0 then
    drmHashInsert (drmHashDelete t h) h (drv_get_reference_count t h - 1)
  else drmHashDelete t h

/-- struct format_metadata fields read by drv_modify_combination. -/
structure format_metadata where
  tiling : Nat
  modifier : Nat
deriving DecidableEq, Repr

/-- struct combination from drv_priv.h as used in helpers.c. -/
structure combination where
  format : Nat
  metadata : format_metadata
  use_flags : Nat
deriving DecidableEq, Repr

/-- drv_modify_combination from helpers.c: scan all records and OR the flags
into every one whose format, tiling and modifier match. -/
def drv_modify_combination (combos : List combination) (format : Nat)
    (metadata : format_metadata) (use_flags : Nat) : List combination :=
  combos.map (fun c =>
    if c.format = format ∧ c.metadata.tiling = metadata.tiling ∧
       c.metadata.modifier = metadata.modifier then
      { c with use_flags := c.use_flags ||| use_flags }
    else c)

/-- Pre-ioctl geometry computed by drv_dumb_bo_create_ex (drm_helpers.c):
the aligned width/height passed to DRM_IOCTL_MODE_CREATE_DUMB, the height
handed to drv_bo_from_format afterwards, and the requested bpp. none models
the layout_from_format null dereference on an unsupported format. -/
structure dumb_spec where
  aligned_width : Nat
  aligned_height : Nat
  layout_height : Nat
  bpp : Nat
deriving DecidableEq, Repr

/-- The switch and quirk handling of drv_dumb_bo_create_ex: R16 aligns the
width to 16; YVU420_ANDROID replaces the height by the buffer's recorded
height, aligns the width to 32 and reserves 3 * ceil(height / 2) rows;
YVU420/NV12/NV21 reserve 3 * ceil(height / 2) rows; the DUMB32BPP quirk
recomputes the width for a fixed 32-bit depth. -/
def dumb_create_dims (meta_height width height format quirks : Nat) : Option dumb_spec :=
  match layout_from_format format with
  | none => none
  | some l =>
    let height1 := if format = DRM_FORMAT_YVU420_ANDROID then meta_height else height
    let aligned_width :=
      if format = DRM_FORMAT_R16 then ALIGN_u32 width 16
      else if format = DRM_FORMAT_YVU420_ANDROID then ALIGN_u32 width 32
      else width
    let aligned_height :=
      if format = DRM_FORMAT_YVU420_ANDROID ∨ format = DRM_FORMAT_YVU420 ∨
         format = DRM_FORMAT_NV12 ∨ format = DRM_FORMAT_NV21 then
        (3 * u32DRU height1 2) % U32
      else height1
    let bpp0 := l.bytes_per_pixel.getD 0 0
    if quirks &&& BO_QUIRK_DUMB32BPP ≠ 0 then
      some { aligned_width := u32DRU ((aligned_width * bpp0) % U32) 4,
             aligned_height := aligned_height, layout_height := height1, bpp := 32 }
    else
      some { aligned_width := aligned_width, aligned_height := aligned_height,
             layout_height := height1, bpp := bpp0 * 8 }

/-- drv_dumb_bo_create_ex from drm_helpers.c. The CREATE_DUMB ioctl is an
oracle taking the aligned width, aligned height and bpp and returning the
kernel's pitch and allocation size (none models ioctl failure, which returns
an error without touching the metadata). On success the plane geometry is
recomputed from the kernel pitch and the (possibly un-aligned) height, and
total_size is overwritten with the kernel's size. -/
def drv_dumb_bo_create_ex (m : bo_meta) (width height format quirks : Nat)
    (create_dumb : Nat → Nat → Nat → Option (Nat × Nat)) : Option bo_meta :=
  match dumb_create_dims m.height width height format quirks with
  | none => none
  | some d =>
    match create_dumb d.aligned_width d.aligned_height d.bpp with
    | none => none
    | some pr =>
      match drv_bo_from_format m pr.1 d.layout_height format with
      | none => none
      | some m1 => some { m1 with total_size := pr.2 }

/-- drv_pick_modifier from helpers.c: for each entry of modifier_order in
turn, the inner loop scans modifiers for an equal element and returns it;
if no order entry is found the linear modifier is returned. -/
def drv_pick_modifier (modifiers : List Nat) (modifier_order : List Nat) : Nat :=
  match modifier_order with
  | [] => DRM_FORMAT_MOD_LINEAR
  | o :: rest =>
    match modifiers.find? (fun m => m == o) with
    | some m => m
    | none => drv_pick_modifier modifiers rest

/-- Concrete prime-import ioctl oracle used to witness the failure-path
theorem: descriptors 0 and 1 import successfully (yielding handles 100 and
101), any other descriptor fails. -/
def primeOracleW : Nat → Option Nat :=
  fun fd => if fd < 2 then some (fd + 100) else none

theorem find?_beq_self (o : Nat) :
    ∀ l : List Nat, l.find? (fun m => m == o) = if o ∈ l then some o else none := by
  intro l
  induction l with
  | nil => simp
  | cons a rest ih =>
    by_cases ha : a = o
    · subst ha
      simp [List.find?_cons]
    · rw [List.find?_cons]
      have : (a == o) = false := by simp [ha]
      rw [this]
      simp only [List.mem_cons]
      rw [ih]
      by_cases ho : o ∈ rest <;> simp [ho, Ne.symm ha, ha]

/-- C8: drv_pick_modifier is total and returns the first entry of the
priority order that occurs anywhere in the candidate list, falling back to
the linear modifier (0) when no priority entry is present; in particular
pick([10,20,30], order=[30,10]) = 30 and pick([10,20], order=[30]) = 0. -/
theorem pick_modifier_first_of_order :
    (∀ (modifiers modifier_order : List Nat),
      drv_pick_modifier modifiers modifier_order =
        (modifier_order.find? (fun o => modifiers.contains o)).getD DRM_FORMAT_MOD_LINEAR) ∧
    drv_pick_modifier [10, 20, 30] [30, 10] = 30 ∧
    drv_pick_modifier [10, 20] [30] = DRM_FORMAT_MOD_LINEAR := by
  refine ⟨?_, by decide, by decide⟩
  intro modifiers order
  induction order with
  | nil => rfl
  | cons o rest ih =>
    rw [drv_pick_modifier, List.find?_cons, find?_beq_self]
    by_cases ho : o ∈ modifiers
    · have hc : modifiers.contains o = true := by
        simpa [List.contains] using ho
      simp [ho, hc]
    · have hc : modifiers.contains o = false := by
        simpa [List.contains] using ho
      simp [ho, hc, ih]

theorem get_ref_count_increment (t : buffer_table) (h : Nat) :
    drv_get_reference_count (drv_increment_reference_count t h) h =
      drv_get_reference_count t h + 1 := by
  simp [drv_get_reference_count, drv_increment_reference_count, drmHashInsert,
        drmHashDelete, drmHashLookup]

theorem get_ref_count_decrement (t : buffer_table) (h : Nat) :
    drv_get_reference_count (drv_decrement_reference_count t h) h =
      drv_get_reference_count t h - 1 := by
  unfold drv_decrement_reference_count
  by_cases hn : drv_get_reference_count t h > 0
  · rw [if_pos hn]
    simp [drv_get_reference_count, drmHashInsert, drmHashLookup]
  · rw [if_neg hn]
    have h0 : drv_get_reference_count t h = 0 := Nat.eq_zero_of_not_pos hn
    rw [h0]
    simp [drv_get_reference_count, drmHashDelete, drmHashLookup]

/-- C7: drv_get_reference_count returns 0 for a handle absent from the
buffer_table; three increments followed by two decrements starting from an
untracked handle leave the count at 1; and a decrement at count 0 leaves the
count at 0 (never a negative value). -/
theorem reference_count_behaviour (t : buffer_table) (h : Nat) (h0 : t h = none) :
    drv_get_reference_count t h = 0 ∧
    drv_get_reference_count
      (drv_decrement_reference_count
        (drv_decrement_reference_count
          (drv_increment_reference_count
            (drv_increment_reference_count
              (drv_increment_reference_count t h) h) h) h) h) h = 1 ∧
    (∀ t2 : buffer_table, drv_get_reference_count t2 h = 0 →
      drv_get_reference_count (drv_decrement_reference_count t2 h) h = 0) := by
  have hz : drv_get_reference_count t h = 0 := by
    simp [drv_get_reference_count, drmHashLookup, h0]
  refine ⟨hz, ?_, ?_⟩
  · rw [get_ref_count_decrement, get_ref_count_decrement, get_ref_count_increment,
        get_ref_count_increment, get_ref_count_increment, hz]
  · intro t2 h2
    rw [get_ref_count_decrement, h2]

/-- Witness for C7 at the empty table and handle 7. -/
theorem reference_count_behaviour_w :
    drv_get_reference_count (fun _ => none) 7 = 0 ∧
    drv_get_reference_count
      (drv_decrement_reference_count
        (drv_decrement_reference_count
          (drv_increment_reference_count
            (drv_increment_reference_count
              (drv_increment_reference_count (fun _ => none) 7) 7) 7) 7) 7) 7 = 1 ∧
    (∀ t2 : buffer_table, drv_get_reference_count t2 7 = 0 →
      drv_get_reference_count (drv_decrement_reference_count t2 7) 7 = 0) :=
  reference_count_behaviour (fun _ => none) 7 rfl

/-- C6: drv_modify_combination ORs the usage bits into every record whose
format, tiling and modifier all match, leaves every other record unchanged,
never changes the number or order of records (in particular appends nothing
when no record matches), and never clears a usage bit of any record. -/
theorem modify_combination_widen_only (combos : List combination) (format : Nat)
    (metadata : format_metadata) (use_flags : Nat) :
    (drv_modify_combination combos format metadata use_flags).length = combos.length ∧
    (∀ (i : Nat) (c : combination), combos[i]? = some c →
      (c.format = format ∧ c.metadata.tiling = metadata.tiling ∧
          c.metadata.modifier = metadata.modifier →
        (drv_modify_combination combos format metadata use_flags)[i]? =
          some { c with use_flags := c.use_flags ||| use_flags }) ∧
      (¬(c.format = format ∧ c.metadata.tiling = metadata.tiling ∧
          c.metadata.modifier = metadata.modifier) →
        (drv_modify_combination combos format metadata use_flags)[i]? = some c)) ∧
    (∀ (i : Nat) (c c2 : combination), combos[i]? = some c →
      (drv_modify_combination combos format metadata use_flags)[i]? = some c2 →
      c.format = c2.format ∧ c.metadata = c2.metadata ∧
      ∀ b, c.use_flags.testBit b = true → c2.use_flags.testBit b = true) := by
  refine ⟨by simp [drv_modify_combination], ?_, ?_⟩
  · intro i c hc
    rw [drv_modify_combination, List.getElem?_map, hc]
    constructor
    · intro hmatch
      rw [Option.map_some', if_pos hmatch]
    · intro hmatch
      rw [Option.map_some', if_neg hmatch]
  · intro i c c2 hc hc2
    rw [drv_modify_combination, List.getElem?_map, hc] at hc2
    simp only [Option.map_some'] at hc2
    by_cases hmatch : c.format = format ∧ c.metadata.tiling = metadata.tiling ∧
        c.metadata.modifier = metadata.modifier
    · rw [if_pos hmatch] at hc2
      cases hc2
      refine ⟨rfl, rfl, ?_⟩
      intro b hb
      rw [Nat.testBit_lor, hb]
      rfl
    · rw [if_neg hmatch] at hc2
      cases hc2
      exact ⟨rfl, rfl, fun b hb => hb⟩

/-- Witness for C6 on a two-record registry where only the first record
matches (format 1, tiling 0, modifier 0): the matching record's flags are
widened from 4 to 4 ||| 3 = 7, the other record is untouched, and the
length stays 2. -/
theorem modify_combination_widen_only_w :
    (drv_modify_combination [⟨1, ⟨0, 0⟩, 4⟩, ⟨2, ⟨0, 0⟩, 4⟩] 1 ⟨0, 0⟩ 3)[0]? =
      some ⟨1, ⟨0, 0⟩, 7⟩ ∧
    (drv_modify_combination [⟨1, ⟨0, 0⟩, 4⟩, ⟨2, ⟨0, 0⟩, 4⟩] 1 ⟨0, 0⟩ 3)[1]? =
      some ⟨2, ⟨0, 0⟩, 4⟩ := by
  constructor
  · have := ((modify_combination_widen_only [⟨1, ⟨0, 0⟩, 4⟩, ⟨2, ⟨0, 0⟩, 4⟩]
      1 ⟨0, 0⟩ 3).2.1 0 ⟨1, ⟨0, 0⟩, 4⟩ rfl).1 (by exact ⟨rfl, rfl, rfl⟩)
    simpa using this
  · exact ((modify_combination_widen_only [⟨1, ⟨0, 0⟩, 4⟩, ⟨2, ⟨0, 0⟩, 4⟩]
      1 ⟨0, 0⟩ 3).2.1 1 ⟨2, ⟨0, 0⟩, 4⟩ rfl).2 (by intro hc; exact absurd hc.1 (by decide))

/-- C10: drv_num_planes_from_format is total over all format codes and
returns 0 for a format absent from the layout catalog, while the other
geometry queries fail (model of the unchecked catalog dereference) on such a
format; under the precondition that the format is supported and the plane
index is below the plane count, their error branch is unreachable (they
return a value). -/
theorem geometry_query_totality (f w hgt p : Nat) :
    (layout_from_format f = none →
      drv_num_planes_from_format f = 0 ∧
      drv_stride_from_format f w p = none ∧
      drv_height_from_format f hgt p = none ∧
      drv_vertical_subsampling_from_format f p = none ∧
      drv_bytes_per_pixel_from_format f p = none) ∧
    (0 < drv_num_planes_from_format f → p < drv_num_planes_from_format f →
      (drv_stride_from_format f w p).isSome = true ∧
      (drv_height_from_format f hgt p).isSome = true ∧
      (drv_vertical_subsampling_from_format f p).isSome = true ∧
      (drv_bytes_per_pixel_from_format f p).isSome = true) := by
  constructor
  · intro hnone
    simp [drv_num_planes_from_format, drv_stride_from_format, drv_height_from_format,
          drv_vertical_subsampling_from_format, drv_bytes_per_pixel_from_format, hnone]
  · intro hpos hp
    cases hl : layout_from_format f with
    | none =>
      rw [drv_num_planes_from_format, hl] at hpos
      exact absurd hpos (by decide)
    | some l =>
      rw [drv_num_planes_from_format, hl] at hp
      simp [drv_stride_from_format, drv_height_from_format,
            drv_vertical_subsampling_from_format, drv_bytes_per_pixel_from_format, hl, hp]

/-- Witness for C10: format code 0 is unsupported (plane count 0, stride
query fails); NV12 with plane 1 is supported (stride query succeeds). -/
theorem geometry_query_totality_w :
    (drv_num_planes_from_format 0 = 0 ∧ drv_stride_from_format 0 100 1 = none) ∧
    (drv_stride_from_format DRM_FORMAT_NV12 100 1).isSome = true := by
  refine ⟨⟨?_, ?_⟩, ?_⟩
  · exact ((geometry_query_totality 0 100 75 1).1 (by rfl)).1
  · exact ((geometry_query_totality 0 100 75 1).1 (by rfl)).2.1
  · exact ((geometry_query_totality DRM_FORMAT_NV12 100 75 1).2 (by decide) (by decide)).1

theorem gemDestroyScan_count (h : Nat) :
    ∀ (rest prev : List Nat),
      (gemDestroyScan prev rest).count h =
        if h ∈ rest ∧ h ∉ prev then 1 else 0 := by
  intro rest
  induction rest with
  | nil => intro prev; simp [gemDestroyScan]
  | cons a rest ih =>
    intro prev
    rw [gemDestroyScan]
    by_cases ha : a ∈ prev
    · rw [if_pos ha, ih]
      by_cases hh : h = a
      · subst hh
        simp [ha]
      · simp only [List.mem_cons, List.mem_append, List.mem_singleton]
        by_cases h1 : h ∈ rest <;> by_cases h2 : h ∈ prev <;> simp [h1, h2, hh]
    · rw [if_neg ha, List.count_cons, ih]
      by_cases hh : h = a
      · subst hh
        simp [ha]
      · have : (a == h) = false := by simp [Ne.symm hh]
        rw [this]
        simp only [List.mem_cons, List.mem_append, List.mem_singleton]
        by_cases h1 : h ∈ rest <;> by_cases h2 : h ∈ prev <;> simp [h1, h2, hh]

theorem gemDestroyScan_mem (h : Nat) :
    ∀ (rest prev : List Nat),
      h ∈ gemDestroyScan prev rest ↔ (h ∈ rest ∧ h ∉ prev) := by
  intro rest prev
  have hc := gemDestroyScan_count h rest prev
  constructor
  · intro hm
    by_contra hcon
    rw [if_neg hcon] at hc
    have hpos : 0 < (gemDestroyScan prev rest).count h := List.count_pos_iff.mpr hm
    omega
  · intro hcond
    rw [if_pos hcond] at hc
    have hpos : 0 < (gemDestroyScan prev rest).count h := by omega
    exact List.count_pos_iff.mp hpos

/-- C4: drv_gem_bo_destroy issues exactly one GEM close per distinct handle
of the buffer object — a plane whose handle duplicates an earlier plane's
handle is skipped — and, on the mapping side, destroying a buffer whose two
planes alias one handle invokes the backend unmap exactly once for the
cached mapping of that handle. -/
theorem gem_destroy_close_once :
    (∀ (handles : List Nat) (h : Nat),
      (drv_gem_bo_destroy handles).count h = if h ∈ handles then 1 else 0) ∧
    (∀ h : Nat, drv_mapping_destroy [h, h] [⟨h, 1⟩] = ([], [h])) := by
  constructor
  · intro handles h
    rw [drv_gem_bo_destroy, gemDestroyScan_count]
    simp
  · intro h
    simp [drv_mapping_destroy, mappingDestroyLoop, scanPlane]

/-- C3 counterexample: the claim says drv_mapping_destroy visits, for every
plane, every cache entry whose handle matches that plane's handle and always
removes it. For a buffer whose planes carry handles 1 and 2 and a cache
holding one entry for handle 2 (refcount 1), the entry matches plane 1's
handle, so per the claim it would be removed and (refcount reaching zero)
unmapped; the code instead leaves the cache untouched and unmaps nothing,
because the scan cursor is not reset after plane 0's pass consumes the whole
array. -/
theorem mapping_destroy_skips_later_plane_cex :
    (drv_mapping_destroy [1, 2] [⟨2, 1⟩]).1 = [⟨2, 1⟩] ∧
    (drv_mapping_destroy [1, 2] [⟨2, 1⟩]).2 = [] := by
  constructor <;> rfl

theorem scanPlane_spec (h : Nat) :
    ∀ ms : List mapping_rec,
      scanPlane h ms =
        (ms.filter (fun m => m.handle != h),
         (ms.filter (fun m => m.handle == h && m.refcount == 1)).map mapping_rec.handle) := by
  intro ms
  induction ms with
  | nil => rfl
  | cons m rest ih =>
    rw [scanPlane, ih]
    by_cases hm : m.handle = h
    · by_cases hr : m.refcount = 1
      · have h1 : m.refcount - 1 = 0 := by rw [hr]; rfl
        simp [hm, hr, h1, List.filter_cons]
      · have h1 : ¬(m.refcount - 1 = 0) := by
          intro hc
          exact hr (by omega)
        simp [hm, hr, h1, List.filter_cons]
    · simp [hm, List.filter_cons]

theorem mappingDestroyLoop_empty_remaining :
    ∀ (hs : List Nat) (passed : List mapping_rec) (events : List Nat),
      mappingDestroyLoop hs passed [] events = (passed, events) := by
  intro hs
  induction hs with
  | nil => intro passed events; simp [mappingDestroyLoop]
  | cons h rest ih =>
    intro passed events
    rw [mappingDestroyLoop]
    have hscan : scanPlane h [] = ([], []) := rfl
    rw [hscan]
    simpa using ih passed events

/-- C3 amended: drv_mapping_destroy scans the mapping cache with a single
cursor shared across planes, so the first plane's pass consumes the whole
cache: every entry whose handle matches the FIRST plane's handle has its
refcount decremented, the backend unmap is invoked and the record freed
exactly when the refcount reaches zero, and the entry is removed without
skipping entries after a removal (all matching entries go, all others stay
in order); entries matching only a later plane's different handle are left
in the cache untouched, because the cursor is already at the end when later
planes are processed. -/
theorem mapping_destroy_first_plane_only (h : Nat) (hs : List Nat)
    (mappings : List mapping_rec) :
    (drv_mapping_destroy (h :: hs) mappings).1 =
      mappings.filter (fun m => m.handle != h) ∧
    (drv_mapping_destroy (h :: hs) mappings).2 =
      (mappings.filter (fun m => m.handle == h && m.refcount == 1)).map
        mapping_rec.handle := by
  rw [drv_mapping_destroy, mappingDestroyLoop, scanPlane_spec]
  rw [mappingDestroyLoop_empty_remaining]
  constructor
  · simp
  · simp

theorem primeImportLoop_release (ioctl : Nat → Option Nat) :
    ∀ (fds acquired : List Nat),
      (primeImportLoop ioctl acquired fds).1 = none →
      ∀ h : Nat,
        (h ∈ acquired ++ (fds.takeWhile (fun fd => (ioctl fd).isSome)).filterMap ioctl ↔
         h ∈ (primeImportLoop ioctl acquired fds).2) := by
  intro fds
  induction fds with
  | nil =>
    intro acquired hfail
    rw [primeImportLoop] at hfail
    exact absurd hfail (by simp)
  | cons fd rest ih =>
    intro acquired hfail h
    cases hio : ioctl fd with
    | none =>
      rw [primeImportLoop, hio]
      have htw : List.takeWhile (fun fd => (ioctl fd).isSome) (fd :: rest) = [] := by
        rw [List.takeWhile_cons]
        simp [hio]
      rw [htw]
      rw [drv_gem_bo_destroy, gemDestroyScan_mem]
      simp
    | some hh =>
      rw [primeImportLoop, hio] at hfail ⊢
      have htw : List.takeWhile (fun fd => (ioctl fd).isSome) (fd :: rest) =
          fd :: List.takeWhile (fun fd => (ioctl fd).isSome) rest := by
        rw [List.takeWhile_cons]
        simp [hio]
      rw [htw, List.filterMap_cons, hio]
      have := ih (acquired ++ [hh]) hfail h
      rw [← this]
      simp

/-- C9: when drv_prime_bo_import fails at some plane, every handle acquired
for the earlier planes is passed to GEM close (released) before the error
returns: the handles closed are exactly the handles obtained from the fds of
the successfully imported prefix. -/
theorem prime_import_releases_on_failure (ioctl : Nat → Option Nat) (fds : List Nat)
    (hfail : (drv_prime_bo_import ioctl fds).1 = none) (h : Nat) :
    h ∈ (fds.takeWhile (fun fd => (ioctl fd).isSome)).filterMap ioctl ↔
    h ∈ (drv_prime_bo_import ioctl fds).2 := by
  have := primeImportLoop_release ioctl fds [] hfail h
  simpa [drv_prime_bo_import] using this

/-- Witness for C9: with the oracle that imports fds 0 and 1 (handles 100
and 101) and fails on fd 5, importing [0, 1, 5] fails and handle 100,
acquired for plane 0, is among the closed handles. -/
theorem prime_import_releases_on_failure_w :
    100 ∈ (([0, 1, 5] : List Nat).takeWhile (fun fd => (primeOracleW fd).isSome)).filterMap
        primeOracleW ↔
    100 ∈ (drv_prime_bo_import primeOracleW [0, 1, 5]).2 :=
  prime_import_releases_on_failure primeOracleW [0, 1, 5] (by rfl) 100

theorem fillPlanes_eq (stride ah format : Nat) :
    ∀ (vs pads : List Nat) (p off : Nat),
      fillPlanes stride ah format p off vs pads =
        (stridesOf stride format p vs,
         sizesOf stride ah format p vs pads,
         offsetsOf off (sizesOf stride ah format p vs pads),
         totalOf off (sizesOf stride ah format p vs pads)) := by
  intro vs
  induction vs with
  | nil => intro pads p off; rfl
  | cons v rest ih =>
    intro pads p off
    rw [fillPlanes, stridesOf, sizesOf, offsetsOf, totalOf, ih]

theorem totalOf_sum : ∀ (l : List Nat) (off : Nat), off + l.sum < U32 →
    totalOf off l = off + l.sum := by
  intro l
  induction l with
  | nil => intro off hb; simp [totalOf]
  | cons sz rest ih =>
    intro off hb
    have hcons : (sz :: rest).sum = sz + rest.sum := by simp
    rw [hcons] at hb
    have hsz : off + sz < U32 := by omega
    rw [totalOf, Nat.mod_eq_of_lt hsz, ih (off + sz) (by omega), hcons]
    omega

theorem offsetsOf_length : ∀ (l : List Nat) (off : Nat), (offsetsOf off l).length = l.length := by
  intro l
  induction l with
  | nil => intro off; rfl
  | cons sz rest ih => intro off; rw [offsetsOf]; simp [ih]

theorem offsetsOf_getD : ∀ (l : List Nat) (off : Nat), off + l.sum < U32 →
    ∀ i : Nat, i < l.length → (offsetsOf off l).getD i 0 = off + (l.take i).sum := by
  intro l
  induction l with
  | nil => intro off hb i hi; simp at hi
  | cons sz rest ih =>
    intro off hb i hi
    have hcons : (sz :: rest).sum = sz + rest.sum := by simp
    rw [hcons] at hb
    have hsz : off + sz < U32 := by omega
    rw [offsetsOf]
    cases i with
    | zero => simp
    | succ j =>
      rw [List.getD_cons_succ, Nat.mod_eq_of_lt hsz,
          ih (off + sz) (by omega) j (by simpa using hi), List.take_succ_cons]
      rw [List.sum_cons]
      omega

theorem take_sum_le (l : List Nat) (p q : Nat) (hpq : p ≤ q) :
    (l.take p).sum ≤ (l.take q).sum := by
  conv_rhs => rw [← List.take_append_drop p (l.take q)]
  rw [List.sum_append, List.take_take, min_eq_left hpq]
  exact Nat.le_add_right _ _

theorem bo_from_format_padding_fields (m m1 : bo_meta) (stride ah format : Nat)
    (padding : List Nat)
    (hres : drv_bo_from_format_and_padding m stride ah format padding = some m1) :
    ∃ l : planar_layout, layout_from_format format = some l ∧
      m1.height = m.height ∧
      m1.strides = stridesOf stride format 0 (vsubList l) ∧
      m1.sizes = sizesOf stride ah format 0 (vsubList l) padding ∧
      m1.offsets = offsetsOf 0 m1.sizes ∧
      m1.total_size = totalOf 0 m1.sizes := by
  rw [drv_bo_from_format_and_padding] at hres
  cases hl : layout_from_format format with
  | none => rw [hl] at hres; exact absurd hres (by simp)
  | some l =>
    rw [hl] at hres
    simp only [] at hres
    by_cases h0 : l.num_planes = 0
    · rw [if_pos h0] at hres; exact absurd hres (by simp)
    · rw [if_neg h0] at hres
      by_cases hA : format = DRM_FORMAT_YVU420_ANDROID ∧
          ¬(ah = m.height ∧ stride = ALIGN_u32 stride 32)
      · rw [if_pos hA] at hres; exact absurd hres (by simp)
      · rw [if_neg hA, fillPlanes_eq] at hres
        have heq := Option.some.inj hres
        refine ⟨l, rfl, ?_, ?_, ?_, ?_, ?_⟩ <;> rw [← heq]

/-- C1: whenever drv_bo_from_format_and_padding succeeds and the plane sizes
it stored sum below 2^32 (no uint32 wrap), the recorded total size equals
the sum of all plane sizes, each plane's byte offset equals the sum of the
sizes of the planes before it (so offset[0] = 0), and the offsets are
monotonically non-decreasing in the plane index. -/
theorem bo_from_format_padding_layout_invariant (m m1 : bo_meta)
    (stride ah format : Nat) (padding : List Nat)
    (hres : drv_bo_from_format_and_padding m stride ah format padding = some m1)
    (hsum : m1.sizes.sum < U32) :
    m1.total_size = m1.sizes.sum ∧
    m1.offsets.length = m1.sizes.length ∧
    m1.offsets.getD 0 0 = 0 ∧
    (∀ p : Nat, p < m1.sizes.length → m1.offsets.getD p 0 = (m1.sizes.take p).sum) ∧
    (∀ p q : Nat, p ≤ q → q < m1.sizes.length →
      m1.offsets.getD p 0 ≤ m1.offsets.getD q 0) := by
  obtain ⟨l, _, _, _, _, hoff, htot⟩ :=
    bo_from_format_padding_fields m m1 stride ah format padding hres
  have hbound : 0 + m1.sizes.sum < U32 := by omega
  have hgetD : ∀ i : Nat, i < m1.sizes.length →
      m1.offsets.getD i 0 = (m1.sizes.take i).sum := by
    intro i hi
    rw [hoff, offsetsOf_getD m1.sizes 0 hbound i hi]
    omega
  refine ⟨?_, ?_, ?_, hgetD, ?_⟩
  · rw [htot, totalOf_sum m1.sizes 0 hbound]
    omega
  · rw [hoff, offsetsOf_length]
  · rw [hoff]
    cases m1.sizes with
    | nil => rfl
    | cons sz rest => rw [offsetsOf]; simp
  · intro p q hpq hq
    rw [hgetD p (by omega), hgetD q hq]
    exact take_sum_le m1.sizes p q hpq

/-- Witness for C1 on NV12 at stride 1920, aligned height 1080, zero
padding: total 3110400 = 2073600 + 1036800 and offset[1] = size[0]. -/
theorem bo_from_format_padding_layout_invariant_w :
    (⟨75, [1920, 1920], [2073600, 1036800], [0, 2073600], 3110400⟩ : bo_meta).total_size =
      (⟨75, [1920, 1920], [2073600, 1036800], [0, 2073600], 3110400⟩ : bo_meta).sizes.sum ∧
    (⟨75, [1920, 1920], [2073600, 1036800], [0, 2073600], 3110400⟩ : bo_meta).offsets.getD 1 0 =
      ((⟨75, [1920, 1920], [2073600, 1036800], [0, 2073600], 3110400⟩ : bo_meta).sizes.take 1).sum := by
  have h := bo_from_format_padding_layout_invariant ⟨75, [], [], [], 0⟩
    ⟨75, [1920, 1920], [2073600, 1036800], [0, 2073600], 3110400⟩
    1920 1080 DRM_FORMAT_NV12 [0, 0, 0, 0] (by decide) (by decide)
  exact ⟨h.1, h.2.2.2.1 1 (by decide)⟩

theorem layout_from_format_cases (f : Nat) (l : planar_layout)
    (hl : layout_from_format f = some l) :
    l = packed_1bpp_layout ∨ l = packed_2bpp_layout ∨ l = packed_3bpp_layout ∨
    l = packed_4bpp_layout ∨ l = packed_8bpp_layout ∨ l = biplanar_yuv_420_layout ∨
    l = triplanar_yuv_420_layout ∨ l = biplanar_yuv_p010_layout := by
  rw [layout_from_format] at hl
  split_ifs at hl <;> simp_all

theorem vsub_from_format_inv (f p v : Nat)
    (hv : drv_vertical_subsampling_from_format f p = some v) :
    ∃ l : planar_layout, layout_from_format f = some l ∧ p < l.num_planes ∧
      v = l.vertical_subsampling.getD p 0 := by
  rw [drv_vertical_subsampling_from_format] at hv
  cases hl : layout_from_format f with
  | none => rw [hl] at hv; exact absurd hv (by simp)
  | some l =>
    rw [hl] at hv
    simp only [] at hv
    by_cases hp : p < l.num_planes
    · rw [if_pos hp] at hv
      exact ⟨l, rfl, hp, (Option.some.inj hv).symm⟩
    · rw [if_neg hp] at hv
      exact absurd hv (by simp)

theorem catalog_vsub_bounds (f p v : Nat)
    (hv : drv_vertical_subsampling_from_format f p = some v) : 1 ≤ v ∧ v ≤ 2 := by
  obtain ⟨l, hl, hp, hveq⟩ := vsub_from_format_inv f p v hv
  subst hveq
  rcases layout_from_format_cases f l hl with h | h | h | h | h | h | h | h <;>
    subst h <;>
    [skip; skip; skip; skip; skip; skip; skip; skip] <;>
    · simp only [packed_1bpp_layout, packed_2bpp_layout, packed_3bpp_layout,
        packed_4bpp_layout, packed_8bpp_layout, biplanar_yuv_420_layout,
        triplanar_yuv_420_layout, biplanar_yuv_p010_layout] at hp ⊢
      interval_cases p <;> simp

theorem vsubList_length (l : planar_layout) : (vsubList l).length = l.num_planes := by
  rw [vsubList, List.length_map, List.length_range]

theorem vsubList_getD (l : planar_layout) (p : Nat) (hp : p < l.num_planes) :
    (vsubList l).getD p 0 = l.vertical_subsampling.getD p 0 := by
  rw [vsubList, List.getD_eq_getElem?_getD, List.getElem?_map, List.getElem?_range hp]
  rfl

theorem getD_tail_nat (pads : List Nat) (j : Nat) :
    pads.tail.getD j 0 = pads.getD (j + 1) 0 := by
  cases pads <;> simp

theorem headD_eq_getD_zero (pads : List Nat) : pads.headD 0 = pads.getD 0 0 := by
  cases pads <;> simp

theorem stridesOf_getD (stride format : Nat) :
    ∀ (vs : List Nat) (p i : Nat), i < vs.length →
      (stridesOf stride format p vs).getD i 0 = subsample_stride stride format (p + i) := by
  intro vs
  induction vs with
  | nil => intro p i hi; simp at hi
  | cons v rest ih =>
    intro p i hi
    cases i with
    | zero => rw [stridesOf, List.getD_cons_zero, Nat.add_zero]
    | succ j =>
      rw [stridesOf, List.getD_cons_succ, ih (p + 1) j (by simpa using hi)]
      have hpj : p + 1 + j = p + (j + 1) := by omega
      rw [hpj]

theorem sizesOf_getD (stride ah format : Nat) :
    ∀ (vs pads : List Nat) (p i : Nat), i < vs.length →
      (sizesOf stride ah format p vs pads).getD i 0 =
        ((subsample_stride stride format (p + i) * u32DRU ah (vs.getD i 0)) % U32 +
          pads.getD i 0) % U32 := by
  intro vs
  induction vs with
  | nil => intro pads p i hi; simp at hi
  | cons v rest ih =>
    intro pads p i hi
    cases i with
    | zero =>
      rw [sizesOf, List.getD_cons_zero, List.getD_cons_zero, headD_eq_getD_zero,
          Nat.add_zero]
    | succ j =>
      rw [sizesOf, List.getD_cons_succ, List.getD_cons_succ,
          ih pads.tail (p + 1) j (by simpa using hi), getD_tail_nat]
      have hpj : p + 1 + j = p + (j + 1) := by omega
      rw [hpj]

/-- C2: for every supported format, plane p's stride is the base stride
halved rounding up exactly when p is not plane 0 and the format is one of
the legacy YVU420 formats (unchanged otherwise), and plane p's size is
stride[p] * ceil(aligned_height / vertical_subsampling[p]) plus that
plane's padding, provided the uint32 arithmetic does not wrap; in
particular a format with 2:1 vertical chroma subsampling at height 1080 has
chroma plane height ceil(1080/2) = 540. -/
theorem plane_stride_size_formula (m m1 : bo_meta) (stride ah format v : Nat)
    (padding : List Nat) (p : Nat)
    (hres : drv_bo_from_format_and_padding m stride ah format padding = some m1)
    (hv : drv_vertical_subsampling_from_format format p = some v)
    (hstride : stride + 1 < U32)
    (hah : ah + 1 < U32)
    (hsz : m1.strides.getD p 0 * DIV_ROUND_UP ah v + padding.getD p 0 < U32) :
    m1.strides.getD p 0 =
      (if p ≠ 0 ∧ (format = DRM_FORMAT_YVU420 ∨ format = DRM_FORMAT_YVU420_ANDROID)
       then DIV_ROUND_UP stride 2 else stride) ∧
    m1.sizes.getD p 0 = m1.strides.getD p 0 * DIV_ROUND_UP ah v + padding.getD p 0 ∧
    drv_height_from_format DRM_FORMAT_NV12 1080 1 = some 540 := by
  obtain ⟨l, hl, _, hstr, hszs, _, _⟩ :=
    bo_from_format_padding_fields m m1 stride ah format padding hres
  obtain ⟨l2, hl2, hp, hveq⟩ := vsub_from_format_inv format p v hv
  rw [hl] at hl2
  obtain rfl : l = l2 := Option.some.inj hl2
  obtain ⟨hv1, hv2⟩ := catalog_vsub_bounds format p v hv
  have hplen : p < (vsubList l).length := by rw [vsubList_length]; exact hp
  have hsub_eq : subsample_stride stride format p =
      (if p ≠ 0 ∧ (format = DRM_FORMAT_YVU420 ∨ format = DRM_FORMAT_YVU420_ANDROID)
       then DIV_ROUND_UP stride 2 else stride) := by
    rw [subsample_stride]
    by_cases hc : p ≠ 0 ∧ (format = DRM_FORMAT_YVU420 ∨ format = DRM_FORMAT_YVU420_ANDROID)
    · rw [if_pos hc, if_pos hc, u32DRU, DIV_ROUND_UP, Nat.mod_eq_of_lt (by omega)]
    · rw [if_neg hc, if_neg hc]
  have hstrp : m1.strides.getD p 0 = subsample_stride stride format p := by
    rw [hstr, stridesOf_getD stride format (vsubList l) 0 p hplen, Nat.zero_add]
  have hdru : u32DRU ah v = DIV_ROUND_UP ah v := by
    rw [u32DRU, DIV_ROUND_UP, Nat.mod_eq_of_lt (by omega)]
  refine ⟨by rw [hstrp, hsub_eq], ?_, by rfl⟩
  have hvsl : (vsubList l).getD p 0 = v := by
    rw [vsubList_getD l p hp, ← hveq]
  rw [hszs, sizesOf_getD stride ah format (vsubList l) padding 0 p hplen, Nat.zero_add,
      hvsl, hdru, ← hstrp]
  have hx : m1.strides.getD p 0 * DIV_ROUND_UP ah v < U32 := by omega
  rw [Nat.mod_eq_of_lt hx, Nat.mod_eq_of_lt hsz]

/-- Witness for C2 on YVU420 at stride 1920, aligned height 1080, plane 1
(vertical subsampling 2), zero padding: the chroma stride is
ceil(1920/2) = 960 and the chroma size 960 * 540. -/
theorem plane_stride_size_formula_w :
    (⟨1080, [1920, 960, 960], [2073600, 518400, 518400], [0, 2073600, 2592000],
        3110400⟩ : bo_meta).strides.getD 1 0 =
      (if (1 : Nat) ≠ 0 ∧ (DRM_FORMAT_YVU420 = DRM_FORMAT_YVU420 ∨
          DRM_FORMAT_YVU420 = DRM_FORMAT_YVU420_ANDROID)
       then DIV_ROUND_UP 1920 2 else 1920) ∧
    (⟨1080, [1920, 960, 960], [2073600, 518400, 518400], [0, 2073600, 2592000],
        3110400⟩ : bo_meta).sizes.getD 1 0 =
      (⟨1080, [1920, 960, 960], [2073600, 518400, 518400], [0, 2073600, 2592000],
        3110400⟩ : bo_meta).strides.getD 1 0 * DIV_ROUND_UP 1080 2 +
        ([0, 0, 0, 0] : List Nat).getD 1 0 := by
  have h := plane_stride_size_formula ⟨1080, [], [], [], 0⟩
    ⟨1080, [1920, 960, 960], [2073600, 518400, 518400], [0, 2073600, 2592000], 3110400⟩
    1920 1080 DRM_FORMAT_YVU420 2 [0, 0, 0, 0] 1
    (by decide) (by decide) (by decide) (by decide) (by decide)
  exact ⟨h.1, h.2.1⟩

/-- C5: for the Android-legacy YV12 format, a dumb-buffer creation request
with width 100 and height 75 (recorded in the buffer metadata) passes
aligned width 128 = ALIGN(100, 32) and internal aligned height
3 * ceil(75/2) = 114 to the kernel CREATE_DUMB call, while the buffer's
externally reported height stays 75. -/
theorem dumb_create_android_alignment (m : bo_meta)
    (create_dumb : Nat → Nat → Nat → Option (Nat × Nat)) (pitch size : Nat)
    (hm : m.height = 75)
    (hio : create_dumb 128 114 8 = some (pitch, size))
    (hpitch : pitch = ALIGN_u32 pitch 32) :
    dumb_create_dims m.height 100 75 DRM_FORMAT_YVU420_ANDROID 0 =
      some ⟨128, 114, 75, 8⟩ ∧
    (drv_dumb_bo_create_ex m 100 75 DRM_FORMAT_YVU420_ANDROID 0 create_dumb).isSome = true ∧
    (drv_dumb_bo_create_ex m 100 75 DRM_FORMAT_YVU420_ANDROID 0 create_dumb).map
      bo_meta.height = some 75 := by
  have hdims : dumb_create_dims m.height 100 75 DRM_FORMAT_YVU420_ANDROID 0 =
      some ⟨128, 114, 75, 8⟩ := by
    rw [hm]
    decide
  have hguard : ¬(True ∧ ¬((75 : Nat) = m.height ∧ pitch = ALIGN_u32 pitch 32)) := by
    intro hc
    exact hc.2 ⟨hm.symm, hpitch⟩
  have hbo : ∃ m2 : bo_meta,
      drv_bo_from_format m pitch 75 DRM_FORMAT_YVU420_ANDROID = some m2 ∧
      m2.height = m.height := by
    rw [drv_bo_from_format, drv_bo_from_format_and_padding]
    have hl : layout_from_format DRM_FORMAT_YVU420_ANDROID =
        some triplanar_yuv_420_layout := by rfl
    rw [hl]
    simp only []
    rw [if_neg (by decide : ¬(triplanar_yuv_420_layout.num_planes = 0))]
    rw [if_neg hguard]
    exact ⟨_, rfl, rfl⟩
  obtain ⟨m2, hm2, hm2h⟩ := hbo
  refine ⟨hdims, ?_, ?_⟩ <;>
    rw [drv_dumb_bo_create_ex, hdims] <;>
    simp only [] <;>
    rw [hio] <;>
    simp only [] <;>
    rw [hm2] <;>
    simp [hm2h, hm]

/-- Witness for C5 with an oracle returning pitch 128 (32-byte aligned) and
size 999. -/
theorem dumb_create_android_alignment_w :
    dumb_create_dims (⟨75, [], [], [], 0⟩ : bo_meta).height 100 75
        DRM_FORMAT_YVU420_ANDROID 0 = some ⟨128, 114, 75, 8⟩ ∧
    (drv_dumb_bo_create_ex ⟨75, [], [], [], 0⟩ 100 75 DRM_FORMAT_YVU420_ANDROID 0
        (fun _ _ _ => some (128, 999))).isSome = true ∧
    (drv_dumb_bo_create_ex ⟨75, [], [], [], 0⟩ 100 75 DRM_FORMAT_YVU420_ANDROID 0
        (fun _ _ _ => some (128, 999))).map bo_meta.height = some 75 :=
  dumb_create_android_alignment ⟨75, [], [], [], 0⟩ (fun _ _ _ => some (128, 999))
    128 999 rfl rfl (by decide)

end Minigbm
